import Mathlib

set_option maxRecDepth 4000

/-!
Shallow embedding of the survival tier of the repository:
`scripts/survival/courier.py` (durable outbox delivery queue),
`scripts/survival/watchdog.py` (health supervisor) and
`scripts/survival/omen_oracle.py` (risk predictor).

Texts are modelled as `List Char`; timestamps and machine integers as `Nat`.
External effects (chunk sends, process restarts, sweeps, sleeps) are modelled
as explicit event traces so that temporal claims can be stated about them.
-/

/-! ## courier.py : configuration constants -/

def MAX_RETRIES : Nat := 10

def MAX_MESSAGE_LENGTH : Nat := 4000

/-! ## courier.py : split_message -/

/-- Python `str.isspace` on the ASCII whitespace characters, as relevant to
`str.lstrip()` in `split_message`. -/
def pyIsSpace (c : Char) : Bool :=
  c = ' ' || c = '\t' || c = '\n' || c = '\r' || c = '\x0b' || c = '\x0c'

/-- Python `text.lstrip()`: drop leading whitespace. -/
def lstrip (l : List Char) : List Char := l.dropWhile pyIsSpace

/-- Helper for `rfindNL`: index (offset by `i`) of the last newline in the
list, `none` if there is none. -/
def rfindNLAux : List Char → Nat → Option Nat
  | [], _ => none
  | c :: rest, i =>
    match rfindNLAux rest (i + 1) with
    | some j => some j
    | none => if c = '\n' then some i else none

/-- Python `text.rfind(chr(10), 0, limit)`: index of the last newline among
the first `limit` characters, with `none` standing for Python's `-1`. -/
def rfindNL (text : List Char) (limit : Nat) : Option Nat :=
  rfindNLAux (text.take limit) 0

/-- The cut position chosen by one iteration of the `split_message` loop:
the last newline at or before the limit, else a hard cut at the limit. -/
def splitCut (text : List Char) : Nat :=
  match rfindNL text MAX_MESSAGE_LENGTH with
  | some j => j
  | none => MAX_MESSAGE_LENGTH

/-- The `while text:` loop of `split_message`, with explicit fuel.
Each iteration strictly shrinks the text, so fuel `text.length` suffices. -/
def splitLoop : Nat → List Char → List (List Char)
  | 0, _ => []
  | fuel + 1, text =>
    if text.length = 0 then []
    else if text.length ≤ MAX_MESSAGE_LENGTH then [text]
    else text.take (splitCut text) :: splitLoop fuel (lstrip (text.drop (splitCut text)))

/-- `split_message(text)` from courier.py: one chunk if the text is within the
limit, otherwise repeatedly cut at the last newline at or before the limit
(hard cut at the limit if there is none), stripping leading whitespace from
the remainder before continuing. -/
def split_message (text : List Char) : List (List Char) :=
  if text.length ≤ MAX_MESSAGE_LENGTH then [text]
  else splitLoop text.length text

/-! ### Concrete chunking scenarios from the spec -/

/-- Scenario text: 5000 copies of `A`, no newline. -/
def textA5000 : List Char := List.replicate 5000 'A'

/-- Remainder of the 9000-character scenario text after the first cut. -/
def rest1 : List Char := List.replicate 4049 'B' ++ '\n' :: List.replicate 1049 'C'

/-- Remainder of the 9000-character scenario text after the second cut. -/
def rest2 : List Char := List.replicate 49 'B' ++ '\n' :: List.replicate 1049 'C'

/-- Scenario text of length 9000 with newlines exactly at positions 3900 and
7950. -/
def text9000 : List Char := List.replicate 3900 'A' ++ '\n' :: rest1

/-- Oversized text whose only newline within the limit is at position 0. -/
def textNL : List Char := '\n' :: List.replicate 4000 'A'

/-! ## courier.py : outbox and process_queue

A message row of the `outbox` table.  External sends are modelled by an
oracle mapping (message id, chunk index) to the channel's response, and the
cycle's observable actions are collected as an event trace. -/

inductive MsgStatus
  | pending
  | failed
deriving DecidableEq

structure OMsg where
  id : Nat
  chat_id : String
  text : List Char
  status : MsgStatus
  attempts : Nat
deriving DecidableEq

/-- Outcome of `send_message_chunk`: HTTP 200, HTTP 429 with a
`retry_after` value, or any other failure. -/
inductive SendResult
  | ok
  | rateLimit (retryAfter : Nat)
  | fail (code : Nat)
deriving DecidableEq

/-- Observable actions of one processing cycle. -/
inductive CEvent
  | send (msgId chunkIdx : Nat) (chunk : List Char)
  | sleepRL (secs : Nat)
  | interChunkDelay
  | deleteMsg (msgId : Nat)
  | setAttempts (msgId attempts : Nat)
  | markFailed (msgId : Nat)
deriving DecidableEq

/-- The `for i, chunk in enumerate(chunks)` loop of `process_queue`: send
chunks in order; on HTTP 429 sleep for the server-given backoff and stop; on
any other failure stop; after a success insert the 0.5 s anti-flood delay.
Returns `all_chunks_sent` and the event trace. -/
def sendChunks (oracle : Nat → Nat → SendResult) (msgId : Nat) :
    Nat → List (List Char) → Bool × List CEvent
  | _, [] => (true, [])
  | i, chunk :: restChunks =>
    match oracle msgId i with
    | .ok =>
      let r := sendChunks oracle msgId (i + 1) restChunks
      (r.1, .send msgId i chunk :: .interChunkDelay :: r.2)
    | .rateLimit w => (false, [.send msgId i chunk, .sleepRL w])
    | .fail _ => (false, [.send msgId i chunk])

/-- Processing of one selected row: chunk, send, then delete on full success
or increment attempts and mark `failed` at the retry budget.  Returns the
event trace and the surviving row (or `none` if deleted). -/
def processMsg (oracle : Nat → Nat → SendResult) (m : OMsg) :
    List CEvent × Option OMsg :=
  let r := sendChunks oracle m.id 0 (split_message m.text)
  if r.1 then (r.2 ++ [.deleteMsg m.id], none)
  else if MAX_RETRIES ≤ m.attempts + 1 then
    (r.2 ++ [.setAttempts m.id (m.attempts + 1), .markFailed m.id],
     some { m with attempts := m.attempts + 1, status := .failed })
  else
    (r.2 ++ [.setAttempts m.id (m.attempts + 1)],
     some { m with attempts := m.attempts + 1 })

/-- The selection filter of `process_queue`:
`status='pending' AND attempts < MAX_RETRIES`. -/
def selectedMsg (m : OMsg) : Bool :=
  m.status = MsgStatus.pending && m.attempts < MAX_RETRIES

/-- One `process_queue` cycle over rows in creation order: selected rows are
processed in order, unselected rows are left untouched. -/
def process_queue (oracle : Nat → Nat → SendResult) :
    List OMsg → List CEvent × List OMsg
  | [] => ([], [])
  | m :: ms =>
    let rest := process_queue oracle ms
    if selectedMsg m then
      let r := processMsg oracle m
      (r.1 ++ rest.1, r.2.toList ++ rest.2)
    else
      (rest.1, m :: rest.2)

/-- Effect of one processing cycle on a single row: untouched when not
selected, otherwise the `processMsg` outcome (`none` = deleted). -/
def cycleMsg (oracle : Nat → Nat → SendResult) (m : OMsg) : Option OMsg :=
  if selectedMsg m then (processMsg oracle m).2 else some m

/-- A row followed over many processing cycles, one send oracle per cycle. -/
def runCycles (m : OMsg) : List (Nat → Nat → SendResult) → Option OMsg
  | [] => some m
  | oracle :: os =>
    match cycleMsg oracle m with
    | none => none
    | some m' => runCycles m' os

/-- Invariant of an outbox row: the attempt count never exceeds the retry
budget, and a `failed` row carries exactly the budget. -/
def MsgInv (m : OMsg) : Prop :=
  m.attempts ≤ MAX_RETRIES ∧ (m.status = .failed → m.attempts = MAX_RETRIES)

instance : DecidablePred MsgInv := fun m => by
  unfold MsgInv; infer_instance

/-! ## courier.py : rate-limit behavior within a cycle -/

/-- `True` iff the trace contains a chunk-send attempt. -/
def containsSend (evs : List CEvent) : Bool :=
  evs.any fun e =>
    match e with
    | .send _ _ _ => true
    | _ => false

/-- `True` iff no send attempt occurs anywhere after a rate-limit sleep. -/
def noSendAfterRateLimit : List CEvent → Bool
  | [] => true
  | .sleepRL _ :: rest => !containsSend rest
  | _ :: rest => noSendAfterRateLimit rest

/-- Channel oracle that rate-limits message 1 (retry_after 5) and accepts
everything else. -/
def oracleRL : Nat → Nat → SendResult :=
  fun msgId _ => if msgId = 1 then .rateLimit 5 else .ok

/-- Channel oracle that accepts every chunk. -/
def oracleOk : Nat → Nat → SendResult := fun _ _ => .ok

def msgA : OMsg := ⟨1, "chat", ['h', 'i'], .pending, 0⟩

def msgB : OMsg := ⟨2, "chat", ['y', 'o'], .pending, 0⟩

/-- Pending outbox row holding the oversized leading-newline text. -/
def msgNL : OMsg := ⟨1, "chat", textNL, .pending, 0⟩

/-! ## watchdog.py : restart throttling and the supervisory cycle -/

def MIN_RESTART_INTERVAL : Nat := 300

def MAX_PROCESS_MEMORY_MB : Nat := 1536

/-- Observable actions of the supervisor. -/
inductive WEvent
  | throttleLog (reason : String)
  | sweep
  | restartCmd
  | removeLock
deriving DecidableEq

/-- `restart_service(reason)` from watchdog.py: given the module-level
last-restart timestamp and the current time, either log a throttle warning
and change nothing, or record the new timestamp, run the rogue sweep, issue
the systemctl restart, and remove the stale lock file.  Returns the new
timestamp and the event trace. -/
def restart_service (lastRestart now : Nat) (reason : String) : Nat × List WEvent :=
  if now - lastRestart < MIN_RESTART_INTERVAL then
    (lastRestart, [.throttleLog reason])
  else
    (now, [.sweep, .restartCmd, .removeLock])

/-- Restart triggers (time, reason) fed through `restart_service` in order;
returns the times at which an actual restart command was issued. -/
def runTriggers : Nat → List (Nat × String) → List Nat
  | _, [] => []
  | lastRestart, (t, reason) :: rest =>
    let r := restart_service lastRestart t reason
    if WEvent.restartCmd ∈ r.2 then t :: runTriggers r.1 rest
    else runTriggers r.1 rest

/-- Verdicts of the external checks feeding one cycle of `main()`. -/
structure CycleInput where
  sysOk : Bool
  sysReason : String
  pidFound : Bool
  vanished : Bool
  memMB : Nat
  httpOk : Bool
deriving DecidableEq

/-- One iteration of the `while True` loop of `main()`: on a system-resource
failure restart (throttled) and skip the rest of the cycle; otherwise run the
presence, memory and liveness checks, then the final rogue sweep. -/
def watchdog_cycle (lastRestart now : Nat) (inp : CycleInput) : Nat × List WEvent :=
  if inp.sysOk = false then
    restart_service lastRestart now inp.sysReason
  else
    let r :=
      if inp.pidFound = false then
        restart_service lastRestart now "Process missing"
      else if inp.vanished then
        restart_service lastRestart now "Process vanished"
      else if MAX_PROCESS_MEMORY_MB < inp.memMB then
        restart_service lastRestart now "Memory threshold exceeded"
      else if inp.httpOk = false then
        restart_service lastRestart now "API unresponsive"
      else (lastRestart, [])
    (r.1, r.2 ++ [.sweep])

/-- `True` iff every restart command in the trace is immediately preceded by
a rogue-process sweep. -/
def sweepBeforeRestart : List WEvent → Bool
  | [] => true
  | .sweep :: .restartCmd :: rest => sweepBeforeRestart rest
  | .restartCmd :: _ => false
  | _ :: rest => sweepBeforeRestart rest

/-! ## watchdog.py : audit_rogue_processes -/

/-- Host process as seen by the sweep: executable name, age in seconds
(current time minus creation time), instantaneous CPU percentage. -/
structure ProcInfo where
  name : String
  age : Nat
  cpuPercent : Nat
deriving DecidableEq

def ROGUE_PROCESS_NAMES : List String := ["grep", "find", "python3", "node"]

def MAX_ROGUE_RUNTIME_SEC : Nat := 3600

/-- The kill condition of `audit_rogue_processes`: watch-listed name AND
runtime above the ceiling AND CPU above 50%. -/
def isRogue (p : ProcInfo) : Bool :=
  decide (p.name ∈ ROGUE_PROCESS_NAMES) &&
    (decide (MAX_ROGUE_RUNTIME_SEC < p.age) && decide (50 < p.cpuPercent))

/-- `audit_rogue_processes()` from watchdog.py, returning the processes it
kills. -/
def audit_rogue_processes (procs : List ProcInfo) : List ProcInfo :=
  procs.filter isRogue

/-! ## omen_oracle.py -/

def SESSION_THRESHOLD : Nat := 100

def CRITICAL_THRESHOLD : Nat := 250

/-- `calculate_risk_score()` from omen_oracle.py (score component): +30 when
the session count exceeds the warn threshold, a further +40 when it exceeds
twice the threshold, clamped by `min(risk, 100)`. -/
def calculate_risk_score (sessions : Nat) : Nat :=
  let risk1 := if SESSION_THRESHOLD < sessions then 0 + 30 else 0
  let risk2 := if SESSION_THRESHOLD * 2 < sessions then risk1 + 40 else risk1
  min risk2 100

/-- The status classification inside `log_risk()`. -/
def log_risk_status (score : Nat) : String :=
  if 70 ≤ score then "CRITICAL" else if 30 ≤ score then "CAUTION" else "SAFE"

/-! ### Computation lemmas for `split_message` -/

theorem rfindNLAux_append (l₁ l₂ : List Char) (i : Nat) :
    rfindNLAux (l₁ ++ l₂) i =
      (match rfindNLAux l₂ (i + l₁.length) with
       | some j => some j
       | none => rfindNLAux l₁ i) := by
  induction l₁ generalizing i with
  | nil =>
    cases h : rfindNLAux l₂ i <;> simp [rfindNLAux, h]
  | cons c l ih =>
    rw [List.cons_append]
    show (match rfindNLAux (l ++ l₂) (i + 1) with
          | some j => some j
          | none => if c = '\n' then some i else none) = _
    rw [ih]
    have harith : i + 1 + l.length = i + (c :: l).length := by
      simp [List.length_cons]; omega
    rw [harith]
    cases h : rfindNLAux l₂ (i + (c :: l).length) with
    | some j => rfl
    | none =>
      show (match rfindNLAux l (i + 1) with
            | some j => some j
            | none => if c = '\n' then some i else none) = rfindNLAux (c :: l) i
      rfl

theorem rfindNLAux_eq_none {l : List Char} (h : '\n' ∉ l) (i : Nat) :
    rfindNLAux l i = none := by
  induction l generalizing i with
  | nil => rfl
  | cons c t ih =>
    simp only [List.mem_cons, not_or] at h
    have hc : ¬ (c = '\n') := fun hh => h.1 hh.symm
    simp [rfindNLAux, ih h.2, hc]

theorem lstrip_cons_space {c : Char} (hc : pyIsSpace c = true) (l : List Char) :
    lstrip (c :: l) = lstrip l := by
  simp [lstrip, List.dropWhile_cons, hc]

theorem lstrip_cons_nonspace {c : Char} (hc : pyIsSpace c = false) (l : List Char) :
    lstrip (c :: l) = c :: l := by
  simp [lstrip, List.dropWhile_cons, hc]

theorem lstrip_replicate {n : Nat} {c : Char} (hc : pyIsSpace c = false) :
    lstrip (List.replicate n c) = List.replicate n c := by
  cases n with
  | zero => rfl
  | succ m => simp [lstrip, List.replicate_succ, List.dropWhile_cons, hc]

theorem lstrip_replicate_append {n : Nat} (hn : 0 < n) {c : Char}
    (hc : pyIsSpace c = false) (rest : List Char) :
    lstrip (List.replicate n c ++ rest) = List.replicate n c ++ rest := by
  cases n with
  | zero => omega
  | succ m => simp [lstrip, List.replicate_succ, List.dropWhile_cons, hc]

theorem splitLoop_succ_of_le {text : List Char} (fuel : Nat)
    (h0 : text.length ≠ 0) (h : text.length ≤ MAX_MESSAGE_LENGTH) :
    splitLoop (fuel + 1) text = [text] := by
  simp [splitLoop, h0, h]

theorem splitLoop_succ_of_gt {text : List Char} (fuel : Nat)
    (h : MAX_MESSAGE_LENGTH < text.length) :
    splitLoop (fuel + 1) text =
      text.take (splitCut text) :: splitLoop fuel (lstrip (text.drop (splitCut text))) := by
  have h0 : ¬ text.length = 0 := by omega
  have h1 : ¬ text.length ≤ MAX_MESSAGE_LENGTH := by omega
  simp [splitLoop, h0, h1]

/-- C4: for every text whose length is at most `MAX_MESSAGE_LENGTH` (4000),
`split_message` returns exactly one chunk equal to the input text. -/
theorem split_message_of_le {text : List Char}
    (h : text.length ≤ MAX_MESSAGE_LENGTH) : split_message text = [text] := by
  simp [split_message, h]

theorem rfindNLAux_nl_cons {l : List Char} (h : '\n' ∉ l) (i : Nat) :
    rfindNLAux ('\n' :: l) i = some i := by
  simp [rfindNLAux, rfindNLAux_eq_none h]

theorem split_message_A5000 :
    split_message textA5000 = [List.replicate 4000 'A', List.replicate 1000 'A'] := by
  have hlen : textA5000.length = 5000 := by
    simp [textA5000, -List.reduceReplicate]
  have htake : textA5000.take 4000 = List.replicate 4000 'A' := by
    norm_num [textA5000, List.take_replicate, -List.reduceReplicate]
  have hrf : rfindNL textA5000 MAX_MESSAGE_LENGTH = none := by
    rw [rfindNL, show MAX_MESSAGE_LENGTH = 4000 from rfl, htake]
    exact rfindNLAux_eq_none (by simp [List.mem_replicate, -List.reduceReplicate]) 0
  have hcut : splitCut textA5000 = 4000 := by
    unfold splitCut; rw [hrf]; rfl
  have hdrop : textA5000.drop 4000 = List.replicate 1000 'A' := by
    norm_num [textA5000, List.drop_replicate, -List.reduceReplicate]
  rw [split_message, hlen, if_neg (by decide)]
  rw [show (5000 : Nat) = 4999 + 1 from by norm_num]
  rw [splitLoop_succ_of_gt _ (by rw [hlen]; decide)]
  rw [hcut, htake, hdrop, lstrip_replicate (by decide)]
  rw [show (4999 : Nat) = 4998 + 1 from by norm_num]
  rw [splitLoop_succ_of_le _ (by simp [-List.reduceReplicate])
        (by simp [MAX_MESSAGE_LENGTH, -List.reduceReplicate])]

theorem split_message_text9000 :
    split_message text9000 =
      [List.replicate 3900 'A', List.replicate 4000 'B', rest2] := by
  have hlen : text9000.length = 9000 := by
    simp [text9000, rest1, -List.reduceReplicate]
  have hr1len : rest1.length = 5099 := by
    simp [rest1, -List.reduceReplicate]
  have hr2len : rest2.length = 1099 := by
    simp [rest2, -List.reduceReplicate]
  have t1take : text9000.take 4000 =
      List.replicate 3900 'A' ++ '\n' :: List.replicate 99 'B' := by
    norm_num [text9000, rest1, List.take_append_eq_append_take,
      List.take_replicate, List.take_cons, -List.reduceReplicate]
  have hrf : rfindNL text9000 MAX_MESSAGE_LENGTH = some 3900 := by
    rw [rfindNL, show MAX_MESSAGE_LENGTH = 4000 from rfl, t1take, rfindNLAux_append]
    rw [rfindNLAux_nl_cons (by simp [List.mem_replicate, -List.reduceReplicate])]
    simp [-List.reduceReplicate]
  have hcut : splitCut text9000 = 3900 := by
    unfold splitCut; rw [hrf]
  have htake : text9000.take 3900 = List.replicate 3900 'A' := by
    norm_num [text9000, List.take_append_eq_append_take, List.take_replicate,
      -List.reduceReplicate]
  have hdrop : text9000.drop 3900 = '\n' :: rest1 := by
    norm_num [text9000, List.drop_append_eq_append_drop, List.drop_replicate,
      -List.reduceReplicate]
  have hl1 : lstrip ('\n' :: rest1) = rest1 := by
    rw [lstrip_cons_space (by decide), rest1]
    exact lstrip_replicate_append (by norm_num) (by decide) _
  have r1take : rest1.take 4000 = List.replicate 4000 'B' := by
    norm_num [rest1, List.take_append_eq_append_take, List.take_replicate,
      -List.reduceReplicate]
  have hrfr1 : rfindNL rest1 MAX_MESSAGE_LENGTH = none := by
    rw [rfindNL, show MAX_MESSAGE_LENGTH = 4000 from rfl, r1take]
    exact rfindNLAux_eq_none (by simp [List.mem_replicate, -List.reduceReplicate]) 0
  have hcutr1 : splitCut rest1 = 4000 := by
    unfold splitCut; rw [hrfr1]; rfl
  have hdropr1 : rest1.drop 4000 = rest2 := by
    norm_num [rest1, rest2, List.drop_append_eq_append_drop, List.drop_replicate,
      -List.reduceReplicate]
  have hl2 : lstrip rest2 = rest2 := by
    rw [rest2]
    exact lstrip_replicate_append (by norm_num) (by decide) _
  rw [split_message, hlen, if_neg (by decide)]
  rw [show (9000 : Nat) = 8999 + 1 from by norm_num]
  rw [splitLoop_succ_of_gt _ (by rw [hlen]; decide)]
  rw [hcut, htake, hdrop, hl1]
  rw [show (8999 : Nat) = 8998 + 1 from by norm_num]
  rw [splitLoop_succ_of_gt _ (by rw [hr1len]; decide)]
  rw [hcutr1, r1take, hdropr1, hl2]
  rw [show (8998 : Nat) = 8997 + 1 from by norm_num]
  rw [splitLoop_succ_of_le _ (by rw [hr2len]; decide) (by rw [hr2len]; decide)]

theorem split_message_textNL :
    split_message textNL = [[], List.replicate 4000 'A'] := by
  have hlen : textNL.length = 4001 := by
    simp [textNL, -List.reduceReplicate]
  have htake : textNL.take 4000 = '\n' :: List.replicate 3999 'A' := by
    norm_num [textNL, List.take_cons, List.take_replicate, -List.reduceReplicate]
  have hrf : rfindNL textNL MAX_MESSAGE_LENGTH = some 0 := by
    rw [rfindNL, show MAX_MESSAGE_LENGTH = 4000 from rfl, htake]
    exact rfindNLAux_nl_cons (by simp [List.mem_replicate, -List.reduceReplicate]) 0
  have hcut : splitCut textNL = 0 := by
    unfold splitCut; rw [hrf]
  have hstrip : lstrip textNL = List.replicate 4000 'A' := by
    rw [textNL, lstrip_cons_space (by decide)]
    exact lstrip_replicate (by decide)
  rw [split_message, hlen, if_neg (by decide)]
  rw [show (4001 : Nat) = 4000 + 1 from by norm_num]
  rw [splitLoop_succ_of_gt _ (by rw [hlen]; decide)]
  rw [hcut, List.take_zero, List.drop_zero, hstrip]
  rw [show (4000 : Nat) = 3999 + 1 from by norm_num]
  rw [splitLoop_succ_of_le _ (by simp [-List.reduceReplicate])
        (by simp [MAX_MESSAGE_LENGTH, -List.reduceReplicate])]

theorem processMsg_sent {oracle : Nat → Nat → SendResult} {m : OMsg}
    (hb : (sendChunks oracle m.id 0 (split_message m.text)).1 = true) :
    (processMsg oracle m).2 = none := by
  simp [processMsg, hb]

theorem processMsg_not_sent_max {oracle : Nat → Nat → SendResult} {m : OMsg}
    (hb : (sendChunks oracle m.id 0 (split_message m.text)).1 = false)
    (hmax : MAX_RETRIES ≤ m.attempts + 1) :
    (processMsg oracle m).2 =
      some { m with attempts := m.attempts + 1, status := .failed } := by
  simp [processMsg, hb, hmax]

theorem processMsg_not_sent_lt {oracle : Nat → Nat → SendResult} {m : OMsg}
    (hb : (sendChunks oracle m.id 0 (split_message m.text)).1 = false)
    (hlt : ¬ MAX_RETRIES ≤ m.attempts + 1) :
    (processMsg oracle m).2 = some { m with attempts := m.attempts + 1 } := by
  simp [processMsg, hb, hlt]

theorem cycleMsg_step (oracle : Nat → Nat → SendResult) (m : OMsg) (h : MsgInv m) :
    cycleMsg oracle m = none ∨
      ∃ m', cycleMsg oracle m = some m' ∧ MsgInv m' ∧ m.attempts ≤ m'.attempts := by
  by_cases hsel : selectedMsg m = true
  · have hs := hsel
    simp only [selectedMsg, Bool.and_eq_true, decide_eq_true_eq] at hs
    have hcyc : cycleMsg oracle m = (processMsg oracle m).2 := by
      simp [cycleMsg, hsel]
    cases hb : (sendChunks oracle m.id 0 (split_message m.text)).1 with
    | true => left; rw [hcyc, processMsg_sent hb]
    | false =>
      right
      by_cases hmax : MAX_RETRIES ≤ m.attempts + 1
      · refine ⟨_, by rw [hcyc, processMsg_not_sent_max hb hmax], ⟨?_, ?_⟩, ?_⟩
        · simp; omega
        · intro _; simp; omega
        · simp
      · refine ⟨_, by rw [hcyc, processMsg_not_sent_lt hb hmax], ⟨?_, ?_⟩, ?_⟩
        · simp; omega
        · intro hf; simp [hs.1] at hf
        · simp
  · right
    exact ⟨m, by simp [cycleMsg, hsel], h, le_refl _⟩

theorem runCycles_inv (os : List (Nat → Nat → SendResult)) (m : OMsg)
    (h : MsgInv m) :
    runCycles m os = none ∨
      ∃ m', runCycles m os = some m' ∧ MsgInv m' ∧ m.attempts ≤ m'.attempts := by
  induction os generalizing m with
  | nil => right; exact ⟨m, rfl, h, le_refl _⟩
  | cons oracle os ih =>
    rcases cycleMsg_step oracle m h with hnone | ⟨m', heq, hinv, hmono⟩
    · left; simp [runCycles, hnone]
    · rcases ih m' hinv with h2 | ⟨m'', heq2, hinv2, hmono2⟩
      · left; simp [runCycles, heq, h2]
      · right
        exact ⟨m'', by simp [runCycles, heq, heq2], hinv2, le_trans hmono hmono2⟩

theorem cycleMsg_failed_absorbing (oracle : Nat → Nat → SendResult) (m : OMsg)
    (hf : m.status = .failed) :
    selectedMsg m = false ∧ cycleMsg oracle m = some m := by
  have hsel : selectedMsg m = false := by simp [selectedMsg, hf]
  exact ⟨hsel, by simp [cycleMsg, hsel]⟩

theorem cycleMsg_failure_transition (oracle : Nat → Nat → SendResult)
    (m m' : OMsg) (hstep : cycleMsg oracle m = some m')
    (hf : m'.status = .failed) :
    (m.status = .failed ∧ m' = m) ∨
      (m.status = .pending ∧ m.attempts + 1 = MAX_RETRIES ∧
        m'.attempts = MAX_RETRIES) := by
  by_cases hsel : selectedMsg m = true
  · right
    have hs := hsel
    simp only [selectedMsg, Bool.and_eq_true, decide_eq_true_eq] at hs
    have hcyc : cycleMsg oracle m = (processMsg oracle m).2 := by
      simp [cycleMsg, hsel]
    rw [hcyc] at hstep
    cases hb : (sendChunks oracle m.id 0 (split_message m.text)).1 with
    | true => rw [processMsg_sent hb] at hstep; exact absurd hstep (by simp)
    | false =>
      by_cases hmax : MAX_RETRIES ≤ m.attempts + 1
      · rw [processMsg_not_sent_max hb hmax] at hstep
        have hm' := Option.some.inj hstep
        refine ⟨hs.1, by omega, ?_⟩
        rw [← hm']; simp; omega
      · rw [processMsg_not_sent_lt hb hmax] at hstep
        have hm' := Option.some.inj hstep
        rw [← hm'] at hf
        simp [hs.1] at hf
  · left
    have hm : some m = some m' := by
      simpa [cycleMsg, hsel] using hstep
    have hm' := Option.some.inj hm
    rw [← hm'] at hf
    exact ⟨hf, hm'.symm⟩

theorem getLast?_cons_of_ne_nil {α : Type} (a : α) {l : List α} (h : l ≠ []) :
    (a :: l).getLast? = l.getLast? := by
  cases l with
  | nil => exact absurd rfl h
  | cons b t => simp [List.getLast?]

theorem sendChunks_ok_unfold {oracle : Nat → Nat → SendResult} {msgId i : Nat}
    {c : List Char} {rest : List (List Char)} (h : oracle msgId i = .ok) :
    sendChunks oracle msgId i (c :: rest) =
      ((sendChunks oracle msgId (i + 1) rest).1,
        .send msgId i c :: .interChunkDelay ::
          (sendChunks oracle msgId (i + 1) rest).2) := by
  simp [sendChunks, h]

theorem sendChunks_rateLimit_unfold {oracle : Nat → Nat → SendResult}
    {msgId i : Nat} {c : List Char} {rest : List (List Char)} {w : Nat}
    (h : oracle msgId i = .rateLimit w) :
    sendChunks oracle msgId i (c :: rest)
      = (false, [.send msgId i c, .sleepRL w]) := by
  simp [sendChunks, h]

theorem sendChunks_fail_unfold {oracle : Nat → Nat → SendResult}
    {msgId i : Nat} {c : List Char} {rest : List (List Char)} {code : Nat}
    (h : oracle msgId i = .fail code) :
    sendChunks oracle msgId i (c :: rest) = (false, [.send msgId i c]) := by
  simp [sendChunks, h]

/-- After a rate-limit sleep, the cycle sends no further chunk of that
message: the sleep is the last event of the message's trace, and the message
counts as not fully sent. -/
theorem sendChunks_sleepRL_last (oracle : Nat → Nat → SendResult)
    (msgId : Nat) (chunks : List (List Char)) : ∀ (i w : Nat),
    CEvent.sleepRL w ∈ (sendChunks oracle msgId i chunks).2 →
    (sendChunks oracle msgId i chunks).1 = false ∧
      (sendChunks oracle msgId i chunks).2.getLast? = some (.sleepRL w) := by
  induction chunks with
  | nil => intro i w hmem; simp [sendChunks] at hmem
  | cons c rest ih =>
    intro i w hmem
    cases horacle : oracle msgId i with
    | ok =>
      rw [sendChunks_ok_unfold horacle] at hmem ⊢
      simp only [List.mem_cons] at hmem
      rcases hmem with h1 | h2 | h3
      · exact absurd h1 (by simp)
      · exact absurd h2 (by simp)
      · rcases ih (i + 1) w h3 with ⟨hb, hlast⟩
        have hne : (sendChunks oracle msgId (i + 1) rest).2 ≠ [] := by
          intro hnil; rw [hnil] at h3; simp at h3
        refine ⟨hb, ?_⟩
        rw [getLast?_cons_of_ne_nil _ (List.cons_ne_nil _ _),
          getLast?_cons_of_ne_nil _ hne, hlast]
    | rateLimit w' =>
      rw [sendChunks_rateLimit_unfold horacle] at hmem ⊢
      simp at hmem
      subst hmem
      exact ⟨rfl, by simp [List.getLast?]⟩
    | fail code =>
      rw [sendChunks_fail_unfold horacle] at hmem
      simp at hmem

/-- Later rows of the same cycle are still processed after any outcome of an
earlier selected row. -/
theorem process_queue_cons_selected (oracle : Nat → Nat → SendResult)
    (m : OMsg) (ms : List OMsg) (h : selectedMsg m = true) :
    (process_queue oracle (m :: ms)).1
      = (processMsg oracle m).1 ++ (process_queue oracle ms).1 := by
  simp [process_queue, h]

theorem process_queue_msgNL_trace :
    (process_queue oracleOk [msgNL]).1 =
      [.send 1 0 [], .interChunkDelay,
       .send 1 1 (List.replicate 4000 'A'), .interChunkDelay, .deleteMsg 1] := by
  have hsel : selectedMsg msgNL = true := by
    simp [selectedMsg, msgNL, MAX_RETRIES]
  have hchunks : split_message msgNL.text = [[], List.replicate 4000 'A'] :=
    split_message_textNL
  have hsends : sendChunks oracleOk 1 0 (split_message textNL)
      = (true, [.send 1 0 [], .interChunkDelay,
                .send 1 1 (List.replicate 4000 'A'), .interChunkDelay]) := by
    rw [split_message_textNL]
    simp [sendChunks, oracleOk, -List.reduceReplicate]
  have hpm : (processMsg oracleOk msgNL).1
      = [.send 1 0 [], .interChunkDelay,
         .send 1 1 (List.replicate 4000 'A'), .interChunkDelay, .deleteMsg 1] := by
    simp only [processMsg, msgNL]
    rw [hsends]
    simp [-List.reduceReplicate]
  rw [process_queue_cons_selected _ _ _ hsel, hpm]
  simp [process_queue, -List.reduceReplicate]

theorem restart_service_throttled {lastRestart now : Nat}
    (h : now - lastRestart < MIN_RESTART_INTERVAL) (reason : String) :
    restart_service lastRestart now reason = (lastRestart, [.throttleLog reason]) := by
  simp [restart_service, h]

theorem restart_service_go {lastRestart now : Nat}
    (h : ¬ now - lastRestart < MIN_RESTART_INTERVAL) (reason : String) :
    restart_service lastRestart now reason
      = (now, [.sweep, .restartCmd, .removeLock]) := by
  simp [restart_service, h]

/-- Any two restart commands issued by `restart_service` are at least the
throttle interval apart: the produced restart times form a chain starting at
the incoming last-restart timestamp. -/
theorem runTriggers_chain (ts : List (Nat × String)) : ∀ st : Nat,
    List.Chain (fun a b => a + MIN_RESTART_INTERVAL ≤ b) st (runTriggers st ts) := by
  induction ts with
  | nil => intro st; exact List.Chain.nil
  | cons t rest ih =>
    intro st
    rcases t with ⟨tt, reason⟩
    by_cases h : tt - st < MIN_RESTART_INTERVAL
    · simp only [runTriggers, restart_service_throttled h]
      rw [if_neg (by simp)]
      exact ih st
    · simp only [runTriggers, restart_service_go h]
      rw [if_pos (by simp)]
      refine List.Chain.cons ?_ (ih tt)
      simp only [MIN_RESTART_INTERVAL] at h ⊢
      omega

theorem calculate_risk_score_eq (n : Nat) :
    calculate_risk_score n =
      if SESSION_THRESHOLD * 2 < n then 70
      else if SESSION_THRESHOLD < n then 30 else 0 := by
  simp only [calculate_risk_score, SESSION_THRESHOLD]
  split_ifs <;> omega

/-! ## Claim theorems -/

/-- C1: For every outbox message the attempt count is monotonically
non-decreasing across processing cycles and never exceeds `MAX_RETRIES`
(10); the message transitions to `failed` exactly once, at the cycle in
which its attempt count first equals that maximum; and once `failed` it is
never selected again, never retried, and never deleted. -/
theorem claim_C1 :
    (∀ (oracle : Nat → Nat → SendResult) (m : OMsg), MsgInv m →
        cycleMsg oracle m = none ∨
          ∃ m', cycleMsg oracle m = some m' ∧ MsgInv m' ∧
            m.attempts ≤ m'.attempts) ∧
    (∀ (os : List (Nat → Nat → SendResult)) (m : OMsg),
        m.status = .pending → m.attempts = 0 →
        runCycles m os = none ∨
          ∃ m', runCycles m os = some m' ∧ m'.attempts ≤ MAX_RETRIES ∧
            (m'.status = .failed → m'.attempts = MAX_RETRIES)) ∧
    (∀ (oracle : Nat → Nat → SendResult) (m : OMsg), m.status = .failed →
        selectedMsg m = false ∧ cycleMsg oracle m = some m) ∧
    (∀ (oracle : Nat → Nat → SendResult) (m m' : OMsg),
        cycleMsg oracle m = some m' → m'.status = .failed →
        (m.status = .failed ∧ m' = m) ∨
          (m.status = .pending ∧ m.attempts + 1 = MAX_RETRIES ∧
            m'.attempts = MAX_RETRIES)) := by
  refine ⟨cycleMsg_step, ?_, cycleMsg_failed_absorbing, cycleMsg_failure_transition⟩
  intro os m hp h0
  have hinv : MsgInv m := by
    constructor
    · omega
    · intro hf; rw [hp] at hf; simp at hf
  rcases runCycles_inv os m hinv with h | ⟨m', heq, hinv', _⟩
  · exact Or.inl h
  · exact Or.inr ⟨m', heq, hinv'.1, hinv'.2⟩

theorem claim_C1_witness :
    selectedMsg ⟨1, "chat", ['h'], .failed, 10⟩ = false ∧
      cycleMsg oracleOk ⟨1, "chat", ['h'], .failed, 10⟩
        = some ⟨1, "chat", ['h'], .failed, 10⟩ :=
  claim_C1.2.2.1 oracleOk ⟨1, "chat", ['h'], .failed, 10⟩ rfl

/-- C2: Two restart actions of the supervisor are never separated by less
than `MIN_RESTART_INTERVAL` (300 s).  For two triggers 10 s apart, the first
restarts (sweep, restart command, lock removal) and records the time; the
second only logs a throttle warning, issues no restart command, and leaves
the timestamp unchanged, regardless of the reasons.  In general the issued
restart times form a chain spaced by at least the throttle interval. -/
theorem claim_C2 :
    (∀ (st t : Nat) (r1 r2 : String), MIN_RESTART_INTERVAL + st ≤ t →
        restart_service st t r1 = (t, [.sweep, .restartCmd, .removeLock]) ∧
        restart_service t (t + 10) r2 = (t, [.throttleLog r2]) ∧
        runTriggers st [(t, r1), (t + 10, r2)] = [t]) ∧
    (∀ (ts : List (Nat × String)) (st : Nat),
        List.Chain (fun a b => a + MIN_RESTART_INTERVAL ≤ b)
          st (runTriggers st ts)) := by
  refine ⟨?_, fun ts st => runTriggers_chain ts st⟩
  intro st t r1 r2 h
  have h1 : ¬ t - st < MIN_RESTART_INTERVAL := by
    simp only [MIN_RESTART_INTERVAL] at h ⊢; omega
  have h2 : t + 10 - t < MIN_RESTART_INTERVAL := by
    simp only [MIN_RESTART_INTERVAL]; omega
  refine ⟨restart_service_go h1 r1, restart_service_throttled h2 r2, ?_⟩
  simp [runTriggers, restart_service_go h1 r1, restart_service_throttled h2 r2]

theorem claim_C2_witness :
    restart_service 0 1000 "cpu" = (1000, [.sweep, .restartCmd, .removeLock]) ∧
    restart_service 1000 1010 "ram" = (1000, [.throttleLog "ram"]) ∧
    runTriggers 0 [(1000, "cpu"), (1010, "ram")] = [1000] := by
  have h := claim_C2.1 0 1000 "cpu" "ram" (by decide)
  simpa using h

/-- C3 counterexample: with message 1 rate-limited and message 2 accepted,
the cycle's trace contains a send attempt for message 2 after the rate-limit
sleep, refuting the claim that no further send attempts occur in the current
cycle after a rate-limit response. -/
theorem claim_C3_counterexample :
    (process_queue oracleRL [msgA, msgB]).1 =
      [.send 1 0 ['h', 'i'], .sleepRL 5, .setAttempts 1 1,
       .send 2 0 ['y', 'o'], .interChunkDelay, .deleteMsg 2] ∧
    noSendAfterRateLimit (process_queue oracleRL [msgA, msgB]).1 = false := by
  decide

/-- C3 amended: a rate-limit response makes the cycle sleep for the
server-specified backoff and halts processing of that message at that chunk
(the sleep is the last event of the message's trace and the message counts
as not fully sent, so it is retained for the next cycle), but later selected
messages of the same cycle are still processed. -/
theorem claim_C3_amended :
    (∀ (oracle : Nat → Nat → SendResult) (msgId i w : Nat) (c : List Char)
        (restChunks : List (List Char)), oracle msgId i = .rateLimit w →
        sendChunks oracle msgId i (c :: restChunks)
          = (false, [.send msgId i c, .sleepRL w])) ∧
    (∀ (oracle : Nat → Nat → SendResult) (msgId : Nat)
        (chunks : List (List Char)) (i w : Nat),
        CEvent.sleepRL w ∈ (sendChunks oracle msgId i chunks).2 →
        (sendChunks oracle msgId i chunks).1 = false ∧
          (sendChunks oracle msgId i chunks).2.getLast?
            = some (.sleepRL w)) ∧
    (∀ (oracle : Nat → Nat → SendResult) (m : OMsg),
        (sendChunks oracle m.id 0 (split_message m.text)).1 = false →
        (processMsg oracle m).2 ≠ none) ∧
    (∀ (oracle : Nat → Nat → SendResult) (m : OMsg) (ms : List OMsg),
        selectedMsg m = true →
        (process_queue oracle (m :: ms)).1
          = (processMsg oracle m).1 ++ (process_queue oracle ms).1) := by
  refine ⟨?_, ?_, ?_, process_queue_cons_selected⟩
  · intro oracle msgId i w c restChunks h
    exact sendChunks_rateLimit_unfold h
  · intro oracle msgId chunks i w hmem
    exact sendChunks_sleepRL_last oracle msgId chunks i w hmem
  · intro oracle m hb
    by_cases hmax : MAX_RETRIES ≤ m.attempts + 1
    · rw [processMsg_not_sent_max hb hmax]; simp
    · rw [processMsg_not_sent_lt hb hmax]; simp

theorem claim_C3_witness :
    sendChunks (fun _ _ => SendResult.rateLimit 7) 5 0 [['x']]
      = (false, [.send 5 0 ['x'], .sleepRL 7]) :=
  claim_C3_amended.1 (fun _ _ => SendResult.rateLimit 7) 5 0 7 ['x'] [] rfl

theorem claim_C4_witness :
    (['h', 'i'] : List Char).length ≤ MAX_MESSAGE_LENGTH ∧
      split_message ['h', 'i'] = [['h', 'i']] :=
  ⟨by decide, split_message_of_le (by decide)⟩

/-- C5: the 9000-character text with newlines at positions 3900 and 7950 is
split into 3 chunks (cut at the newline, then a hard cut, with leading
whitespace stripped from the remainders), each at most 4000 characters, and
reinserting the stripped newline reconstructs the original text; the text
`A`×5000 is split into exactly 2 chunks of lengths 4000 and 1000. -/
theorem claim_C5 :
    text9000.length = 9000 ∧
    split_message text9000 =
      [List.replicate 3900 'A', List.replicate 4000 'B', rest2] ∧
    (split_message text9000).length = 3 ∧
    (∀ c ∈ split_message text9000, c.length ≤ MAX_MESSAGE_LENGTH) ∧
    List.replicate 3900 'A' ++ '\n' :: (List.replicate 4000 'B' ++ rest2)
      = text9000 ∧
    textA5000.length = 5000 ∧
    split_message textA5000 = [List.replicate 4000 'A', List.replicate 1000 'A'] ∧
    (split_message textA5000).map List.length = [4000, 1000] := by
  have h49 : List.replicate 4049 'B' = List.replicate 4000 'B' ++ List.replicate 49 'B' := by
    rw [← List.replicate_add]
  refine ⟨by simp [text9000, rest1, -List.reduceReplicate],
    split_message_text9000, by rw [split_message_text9000]; rfl, ?_, ?_,
    by simp [textA5000, -List.reduceReplicate],
    split_message_A5000, by rw [split_message_A5000]; simp [-List.reduceReplicate]⟩
  · simp only [split_message_text9000]
    intro c hc
    simp only [List.mem_cons, List.not_mem_nil, or_false] at hc
    rcases hc with rfl | rfl | rfl <;>
      simp [rest2, MAX_MESSAGE_LENGTH, -List.reduceReplicate]
  · rw [text9000, rest1, rest2, h49, List.append_assoc]

theorem claim_C5_witness :
    (List.replicate 4000 'B' : List Char).length ≤ MAX_MESSAGE_LENGTH := by
  have h := claim_C5
  exact h.2.2.2.1 _ (by rw [h.2.1]; simp [-List.reduceReplicate])

/-- C6: under the default thresholds (100, 200) and increments (+30, +40)
the risk score is 0 at or below the warn threshold, 30 above it, 70 above
twice it, always clamped within [0,100]; classification is CRITICAL at
score ≥ 70, CAUTION at score ≥ 30, else SAFE; session counts 50, 150, 250
give 0/SAFE, 30/CAUTION, 70/CRITICAL. -/
theorem claim_C6 :
    (∀ n : Nat, n ≤ SESSION_THRESHOLD → calculate_risk_score n = 0) ∧
    (∀ n : Nat, SESSION_THRESHOLD < n → n ≤ SESSION_THRESHOLD * 2 →
        calculate_risk_score n = 30) ∧
    (∀ n : Nat, SESSION_THRESHOLD * 2 < n → calculate_risk_score n = 70) ∧
    (∀ n : Nat, calculate_risk_score n ≤ 100) ∧
    (∀ s : Nat, 70 ≤ s → log_risk_status s = "CRITICAL") ∧
    (∀ s : Nat, 30 ≤ s → s < 70 → log_risk_status s = "CAUTION") ∧
    (∀ s : Nat, s < 30 → log_risk_status s = "SAFE") ∧
    (calculate_risk_score 50 = 0 ∧
      log_risk_status (calculate_risk_score 50) = "SAFE") ∧
    (calculate_risk_score 150 = 30 ∧
      log_risk_status (calculate_risk_score 150) = "CAUTION") ∧
    (calculate_risk_score 250 = 70 ∧
      log_risk_status (calculate_risk_score 250) = "CRITICAL") := by
  refine ⟨?_, ?_, ?_, ?_, ?_, ?_, ?_, ⟨by decide, by decide⟩,
    ⟨by decide, by decide⟩, ⟨by decide, by decide⟩⟩
  · intro n h
    rw [calculate_risk_score_eq, if_neg (by omega), if_neg (by omega)]
  · intro n h1 h2
    rw [calculate_risk_score_eq, if_neg (by omega), if_pos h1]
  · intro n h
    rw [calculate_risk_score_eq, if_pos h]
  · intro n
    rw [calculate_risk_score_eq]
    split_ifs <;> omega
  · intro s h
    rw [log_risk_status, if_pos h]
  · intro s h1 h2
    rw [log_risk_status, if_neg (by omega), if_pos h1]
  · intro s h
    rw [log_risk_status, if_neg (by omega), if_neg (by omega)]

theorem claim_C6_witness :
    calculate_risk_score 50 = 0 := claim_C6.1 50 (by decide)

/-- C7 counterexample: in a cycle whose system-resource check fails and
whose restart request is throttled, the rogue-process sweep does not run at
all, refuting the claim that the sweep executes in every supervisory cycle
including system-resource-failure cycles. -/
theorem claim_C7_counterexample :
    watchdog_cycle 1000 1010 ⟨false, "System CPU overload: 99.0%", true, false, 100, true⟩
      = (1000, [.throttleLog "System CPU overload: 99.0%"]) ∧
    WEvent.sweep ∉
      (watchdog_cycle 1000 1010
        ⟨false, "System CPU overload: 99.0%", true, false, 100, true⟩).2 := by
  decide

/-- C7 amended: the rogue-process sweep executes in every supervisory cycle
in which the system-resource check passes, regardless of the presence,
memory and liveness outcomes; every issued restart command is immediately
preceded by a sweep; and in a cycle whose system-resource check fails the
sweep runs exactly when the restart is not throttled. -/
theorem claim_C7_amended :
    ∀ (st now : Nat) (inp : CycleInput),
      (inp.sysOk = true → WEvent.sweep ∈ (watchdog_cycle st now inp).2) ∧
      sweepBeforeRestart (watchdog_cycle st now inp).2 = true ∧
      (inp.sysOk = false →
        (WEvent.sweep ∈ (watchdog_cycle st now inp).2 ↔
          MIN_RESTART_INTERVAL ≤ now - st)) := by
  intro st now inp
  rcases inp with ⟨sysOk, sysReason, pidFound, vanished, memMB, httpOk⟩
  by_cases ht : now - st < MIN_RESTART_INTERVAL
  all_goals
    cases sysOk <;> cases pidFound <;> cases vanished <;> cases httpOk <;>
      by_cases hm : MAX_PROCESS_MEMORY_MB < memMB <;>
        simp [watchdog_cycle, restart_service, ht, hm, sweepBeforeRestart] <;>
          omega

theorem claim_C7_witness :
    WEvent.sweep ∈ (watchdog_cycle 0 1000 ⟨true, "", true, false, 0, true⟩).2 :=
  (claim_C7_amended 0 1000 ⟨true, "", true, false, 0, true⟩).1 rfl

/-- C8: the rogue sweep kills a process iff its name is on the watch-list
AND its age exceeds `MAX_ROGUE_RUNTIME_SEC` (3600 s) AND its CPU usage
exceeds 50%; a watch-listed process of age 4000 s at 80% CPU is killed while
one at 10% CPU is left running. -/
theorem claim_C8 :
    (∀ (p : ProcInfo) (procs : List ProcInfo),
        p ∈ audit_rogue_processes procs ↔
          p ∈ procs ∧ p.name ∈ ROGUE_PROCESS_NAMES ∧
            MAX_ROGUE_RUNTIME_SEC < p.age ∧ 50 < p.cpuPercent) ∧
    isRogue ⟨"python3", 4000, 80⟩ = true ∧
    isRogue ⟨"python3", 4000, 10⟩ = false ∧
    audit_rogue_processes [⟨"python3", 4000, 80⟩, ⟨"python3", 4000, 10⟩]
      = [⟨"python3", 4000, 80⟩] := by
  refine ⟨?_, by decide, by decide, by decide⟩
  intro p procs
  simp [audit_rogue_processes, List.mem_filter, isRogue, and_assoc]

/-- C9: chunking does not guarantee non-empty chunks: for the oversized text
whose only in-limit newline is at position 0, `split_message` returns an
empty first chunk, and the processing cycle then submits that empty chunk to
the delivery channel. -/
theorem claim_C9 :
    MAX_MESSAGE_LENGTH < textNL.length ∧
    split_message textNL = [[], List.replicate 4000 'A'] ∧
    [] ∈ split_message textNL ∧
    CEvent.send 1 0 [] ∈ (process_queue oracleOk [msgNL]).1 := by
  refine ⟨?_, split_message_textNL, ?_, ?_⟩
  · have h : textNL.length = 4001 := by simp [textNL, -List.reduceReplicate]
    rw [h]; decide
  · rw [split_message_textNL]; simp [-List.reduceReplicate]
  · rw [process_queue_msgNL_trace]; simp [-List.reduceReplicate]

/-- C10: under the default scheme the risk score only takes the values 0, 30
and 70; it never exceeds 70, so the clamp at 100 never takes effect; the
CRITICAL classification is reached exactly when the session count exceeds
200, strictly below the separately defined `CRITICAL_THRESHOLD` of 250. -/
theorem claim_C10 :
    (∀ n : Nat, calculate_risk_score n = 0 ∨ calculate_risk_score n = 30 ∨
        calculate_risk_score n = 70) ∧
    (∀ n : Nat, calculate_risk_score n ≤ 70) ∧
    (∀ n : Nat, calculate_risk_score n < 100) ∧
    (∀ n : Nat, log_risk_status (calculate_risk_score n) = "CRITICAL" ↔
        SESSION_THRESHOLD * 2 < n) ∧
    (log_risk_status (calculate_risk_score 225) = "CRITICAL" ∧
      225 < CRITICAL_THRESHOLD) := by
  refine ⟨?_, ?_, ?_, ?_, by decide, by decide⟩
  · intro n
    rw [calculate_risk_score_eq]
    split_ifs <;> simp
  · intro n
    rw [calculate_risk_score_eq]
    split_ifs <;> omega
  · intro n
    rw [calculate_risk_score_eq]
    split_ifs <;> omega
  · intro n
    rw [calculate_risk_score_eq]
    by_cases h2 : SESSION_THRESHOLD * 2 < n
    · simp [h2, log_risk_status]
    · by_cases h1 : SESSION_THRESHOLD < n
      · simp [h2, h1, log_risk_status]
      · simp [h2, h1, log_risk_status]

theorem claim_C10_witness :
    calculate_risk_score 201 = 0 ∨ calculate_risk_score 201 = 30 ∨
      calculate_risk_score 201 = 70 :=
  claim_C10.1 201
